import Mathlib

/-!
Availability check: embedding of `src/app`.

A shallow embedding of the availability service
(`models.go`, `inventory.go`, `availability.go`) together with the mock
adapter of `availability_test.go`.

* Go `int` is the 64-bit two's complement integer: values are `Int`s in
  `[-2^63, 2^63)` and every arithmetic result goes through `wrapInt64`.
* Go `float64` is modelled exactly on the values that occur here: a finite
  double is a dyadic rational `num / 2^scale`, and every operation rounds its
  exact result to 53 significant bits, ties to even.  The exponent range of a
  double is not modelled: all magnitudes that occur are `0` or lie between
  `2^-4` and `2^64`, far from both the subnormal and the overflow range.
* `time.Now().Weekday()` is an input: the two readings that one call of
  `CheckAvailability` makes are passed in explicitly.
-/

namespace Availability

/-! ## Machine integers -/

/-- Bounds of a Go `int` on a 64-bit platform. -/
def IsInt64 (x : Int) : Prop := -(2 : Int) ^ 63 ≤ x ∧ x < (2 : Int) ^ 63

instance (x : Int) : Decidable (IsInt64 x) := by
  unfold IsInt64; infer_instance

/-- Two's complement wrap-around of a mathematical integer into `int`. -/
def wrapInt64 (x : Int) : Int := (x + 2 ^ 63) % 2 ^ 64 - 2 ^ 63

/-! ## Double precision arithmetic -/

/-- Number of binary digits of `n`; the first argument bounds the recursion. -/
def bitLengthAux : Nat → Nat → Nat
  | 0, _ => 0
  | fuel + 1, n => if n = 0 then 0 else bitLengthAux fuel (n / 2) + 1

/-- Number of binary digits of `n` (`0` for `0`). -/
def bitLength (n : Nat) : Nat := bitLengthAux n n

/-- The quotient `n / g` rounded to the nearest integer, ties to even. -/
def roundNearestEven (n g : Nat) : Nat :=
  let q := n / g
  let r := n % g
  if 2 * r < g then q
  else if g < 2 * r then q + 1
  else if q % 2 = 0 then q else q + 1

/-- Round `n` to 53 significant bits, ties to even. -/
def roundSig53 (n : Nat) : Nat :=
  let g := 2 ^ (bitLength n - 53)
  roundNearestEven n g * g

/-- A finite double, as the dyadic rational `num / 2 ^ scale`. -/
structure F64 where
  num : Int
  scale : Nat
  deriving DecidableEq, Repr

namespace F64

/-- Round the exact value `num / 2 ^ scale` to the nearest double. -/
def round (num : Int) (scale : Nat) : F64 :=
  ⟨Int.sign num * (roundSig53 num.natAbs : Int), scale⟩

/-- The conversion `float64(i)` of an `int`. -/
def ofInt (i : Int) : F64 := round i 0

/-- The product of two doubles, rounded once. -/
def mul (x y : F64) : F64 := round (x.num * y.num) (x.scale + y.scale)

/-- The constant `0.10` as a double: `0x3FB999999999999A`. -/
def tenth : F64 := ⟨3602879701896397, 55⟩

/-- The conversion `int(x)` of a double: the fraction is discarded
(truncation toward zero). -/
def toInt (x : F64) : Int := Int.tdiv x.num (2 ^ x.scale)

end F64

/-! ## models.go -/

/-- Request represents the incoming availability check request. -/
structure Request where
  ProductID : String
  Quantity : Int
  WarehouseLocation : String
  deriving DecidableEq, Repr

/-- Response represents the availability check response. -/
structure Response where
  Available : Bool
  AvailableQuantity : Int
  Reason : String
  Warehouse : String
  deriving DecidableEq, Repr

/-- InventoryItem represents stock information for a product at a warehouse. -/
structure InventoryItem where
  ProductID : String
  Warehouse : String
  StockLevel : Int
  deriving DecidableEq, Repr

/-! ## inventory.go -/

/-- InventoryAdapter: the interface for fetching inventory data.  The Go
result `(int, error)` is `Except String Int`: the error carries its message. -/
structure InventoryAdapter where
  GetStockLevel : String → String → Except String Int

/-- The message of the not-found error of both adapters. -/
def notFoundError (productID warehouse : String) : String :=
  "product " ++ productID ++ " not found in warehouse " ++ warehouse

/-- The loop of `FileInventoryAdapter.GetStockLevel` over the loaded items. -/
def FileInventoryAdapter.GetStockLevel (inventory : List InventoryItem)
    (productID warehouse : String) : Except String Int :=
  match inventory with
  | [] => .error (notFoundError productID warehouse)
  | item :: rest =>
    if item.ProductID = productID ∧ item.Warehouse = warehouse then .ok item.StockLevel
    else FileInventoryAdapter.GetStockLevel rest productID warehouse

/-- A file adapter whose inventory has been loaded. -/
def FileInventoryAdapter (inventory : List InventoryItem) : InventoryAdapter :=
  ⟨FileInventoryAdapter.GetStockLevel inventory⟩

/-! ## availability_test.go -/

/-- Lookup in a Go map, as an association list. -/
def mapLookup {α : Type} (key : String) : List (String × α) → Option α
  | [] => none
  | (k, v) :: rest => if k = key then some v else mapLookup key rest

/-- The data of `NewMockInventoryAdapter`: productID -> warehouse -> stock. -/
def mockInventory : List (String × List (String × Int)) :=
  [("PROD-123", [("DE-Berlin", 100), ("US-NewYork", 50)]),
   ("PROD-456", [("DE-Berlin", 25), ("US-NewYork", 75)]),
   ("PROD-789", [("DE-Berlin", 0), ("US-NewYork", 15)]),
   ("PROD-101", [("DE-Berlin", 10), ("US-NewYork", 11)]),
   ("PROD-202", [("DE-Berlin", 1), ("UK-London", 500)]),
   ("PROD-303", [("UK-London", 20)]),
   ("PROD-404", [("DE-Berlin", 200)]),
   ("PROD-505", [("US-NewYork", 5)])]

/-- The method `MockInventoryAdapter.GetStockLevel`. -/
def MockInventoryAdapter.GetStockLevel (inventory : List (String × List (String × Int)))
    (productID warehouse : String) : Except String Int :=
  match mapLookup productID inventory with
  | some warehouses =>
    match mapLookup warehouse warehouses with
    | some stock => .ok stock
    | none => .error (notFoundError productID warehouse)
  | none => .error (notFoundError productID warehouse)

/-- The adapter built by `NewMockInventoryAdapter`. -/
def NewMockInventoryAdapter : InventoryAdapter :=
  ⟨MockInventoryAdapter.GetStockLevel mockInventory⟩

/-- An adapter that reports the same stock level for every pair. -/
def constantAdapter (stock : Int) : InventoryAdapter := ⟨fun _ _ => .ok stock⟩

/-! ## availability.go -/

/-- The type `time.Weekday`. -/
inductive Weekday where
  | Sunday | Monday | Tuesday | Wednesday | Thursday | Friday | Saturday
  deriving DecidableEq, Repr

/-- AvailabilityService handles the business logic. -/
structure AvailabilityService where
  inventoryAdapter : InventoryAdapter

/-- NewAvailabilityService creates a service with the given adapter. -/
def NewAvailabilityService (adapter : InventoryAdapter) : AvailabilityService :=
  ⟨adapter⟩

/-- The function `isWeekend`, with the day read from the clock as argument. -/
def isWeekend (today : Weekday) : Bool :=
  today == Weekday.Saturday || today == Weekday.Sunday

/-- The verb `%d` of `fmt.Sprintf`. -/
def fmtD (i : Int) : String := toString i

/-- The expression `float64(stockLevel) * 0.10`. -/
def reserveBuffer (stockLevel : Int) : F64 := F64.mul (F64.ofInt stockLevel) F64.tenth

/-- The expression `stockLevel - int(reserveBuffer)`. -/
def availableStock (stockLevel : Int) : Int :=
  wrapInt64 (stockLevel - F64.toInt (reserveBuffer stockLevel))

/-- The value of `requiredQuantity` after the weekend test. -/
def requiredQuantity (weekend : Bool) (quantity : Int) : Int :=
  if weekend then wrapInt64 (quantity * 2) else quantity

/-- CheckAvailability implements the business logic.  `today₁` is the day seen
by the call of `isWeekend` that sets the required quantity, `today₂` the day
seen by the call that chooses the reason text. -/
def CheckAvailability (s : AvailabilityService) (today₁ today₂ : Weekday)
    (req : Request) : Response :=
  match s.inventoryAdapter.GetStockLevel req.ProductID req.WarehouseLocation with
  | .error _ =>
    { Available := false
      AvailableQuantity := 0
      Reason := "Product not found in specified warehouse"
      Warehouse := req.WarehouseLocation }
  | .ok stockLevel =>
    if stockLevel = 0 then
      { Available := false
        AvailableQuantity := availableStock stockLevel
        Reason := "Product is out of stock"
        Warehouse := req.WarehouseLocation }
    else if requiredQuantity (isWeekend today₁) req.Quantity ≤ availableStock stockLevel then
      { Available := true
        AvailableQuantity := availableStock stockLevel
        Reason :=
          if isWeekend today₂ then
            "Sufficient stock available (weekend: requires "
              ++ fmtD (requiredQuantity (isWeekend today₁) req.Quantity)
              ++ " units in stock for " ++ fmtD req.Quantity ++ " order)"
          else "Sufficient stock available"
        Warehouse := req.WarehouseLocation }
    else
      { Available := false
        AvailableQuantity := availableStock stockLevel
        Reason :=
          if isWeekend today₂ then
            "Insufficient stock (weekend: requires "
              ++ fmtD (requiredQuantity (isWeekend today₁) req.Quantity)
              ++ " units, only " ++ fmtD (availableStock stockLevel)
              ++ " available after reserve)"
          else
            "Insufficient stock (requires "
              ++ fmtD (requiredQuantity (isWeekend today₁) req.Quantity)
              ++ " units, only " ++ fmtD (availableStock stockLevel)
              ++ " available after reserve)"
        Warehouse := req.WarehouseLocation }


/-- The reserve of a non-negative stock level, on natural numbers. -/
def reserveNat (n : Nat) : Nat :=
  roundSig53 (roundSig53 n * 3602879701896397) / 2 ^ 55

/-- The service of the tests: the mock adapter behind the availability service. -/
def mockService : AvailabilityService := NewAvailabilityService NewMockInventoryAdapter

/-- The columns "Stock Level" and "Available After Reserve" of the table
"Available Products" of the documentation page (`docs.go`), row by row. -/
def docsTable : List (Int × Int) :=
  [(100, 90), (50, 45), (25, 22), (75, 67), (0, 0), (15, 13), (10, 9), (11, 10),
   (1, 1), (500, 450), (20, 18), (200, 180), (5, 4)]

/-! ## handler.go -/

/-- An incoming HTTP request, as far as the handler looks at it: the method
and the outcome of `decoder.Decode(&req)` on the body (the decoded request,
or the decoder's error). -/
structure HttpRequest where
  Method : String
  Body : Except String Request

/-- What the handler writes: the message handed to `http.Error`, which
net/http sends as a plain-text line, or the JSON encoding of a response. -/
inductive ResponseBody where
  | text (message : String)
  | json (response : Response)
  deriving DecidableEq, Repr

/-- The status code and the body written to the `http.ResponseWriter`. -/
structure HttpResponse where
  Status : Nat
  Body : ResponseBody
  deriving DecidableEq, Repr

/-- The outcome of one run of the handler: what it wrote, and the requests it
passed to `CheckAvailability`, in order. -/
structure HandlerOutcome where
  response : HttpResponse
  calls : List Request
  deriving DecidableEq, Repr

/-- AvailabilityHandler handles HTTP requests for the availability check endpoint. -/
structure AvailabilityHandler where
  availabilityService : AvailabilityService

/-- NewAvailabilityHandler creates a handler with the given service. -/
def NewAvailabilityHandler (service : AvailabilityService) : AvailabilityHandler :=
  ⟨service⟩

/-- HandleCheckAvailability handles POST /api/check-availability requests.
The two days are the clock readings of the call of `CheckAvailability`. -/
def HandleCheckAvailability (h : AvailabilityHandler) (today₁ today₂ : Weekday)
    (r : HttpRequest) : HandlerOutcome :=
  if r.Method ≠ "POST" then
    ⟨⟨405, .text "Method not allowed. Use POST"⟩, []⟩
  else
    match r.Body with
    | .error err => ⟨⟨400, .text ("Invalid JSON: " ++ err)⟩, []⟩
    | .ok req =>
      if req.ProductID = "" then
        ⟨⟨400, .text "product_id is required"⟩, []⟩
      else if req.Quantity ≤ 0 then
        ⟨⟨400, .text "quantity must be greater than 0"⟩, []⟩
      else if req.WarehouseLocation = "" then
        ⟨⟨400, .text "warehouse_location is required"⟩, []⟩
      else
        ⟨⟨200, .json (CheckAvailability h.availabilityService today₁ today₂ req)⟩, [req]⟩

/-- The handler of the tests' service. -/
def mockHandler : AvailabilityHandler := NewAvailabilityHandler mockService

/-! ## The evaluator of the specification -/

/-- The result of the stock lookup of the specification: a quantity, or the
signal that the pair is unknown. -/
inductive StockLookupResult where
  | NotFound
  | Found (stockQuantity : Int)
  deriving DecidableEq, Repr

/-- The lookup result that a return value `(int, error)` of `GetStockLevel`
stands for. -/
def lookupResultOf : Except String Int → StockLookupResult
  | .error _ => .NotFound
  | .ok stockLevel => .Found stockLevel

/-- The operation `evaluate(request, stockLookupResult, isWeekend)` as the
specification words it (section 4.2, steps 1 to 8).  The reserve is the
product of the stock and `0.10` truncated toward zero, computed in double
arithmetic: section 9 asks to keep the floating-point truncation exactly and
not to switch to integer division.  The quantities are mathematical integers:
the required quantity is the requested one, doubled on a weekend. -/
def evaluate (request : Request) (stockLookupResult : StockLookupResult)
    (weekend : Bool) : Response :=
  match stockLookupResult with
  | .NotFound =>
    { Available := false
      AvailableQuantity := 0
      Reason := "Product not found in specified warehouse"
      Warehouse := request.WarehouseLocation }
  | .Found stockQuantity =>
    let reserve := F64.toInt (F64.mul (F64.ofInt stockQuantity) F64.tenth)
    let availableQuantity := stockQuantity - reserve
    if stockQuantity = 0 then
      { Available := false
        AvailableQuantity := 0
        Reason := "Product is out of stock"
        Warehouse := request.WarehouseLocation }
    else
      let required := request.Quantity * (if weekend then 2 else 1)
      if required ≤ availableQuantity then
        { Available := true
          AvailableQuantity := availableQuantity
          Reason :=
            if weekend then
              "Sufficient stock available (weekend: requires " ++ fmtD required
                ++ " units in stock for " ++ fmtD request.Quantity ++ " order)"
            else "Sufficient stock available"
          Warehouse := request.WarehouseLocation }
      else
        { Available := false
          AvailableQuantity := availableQuantity
          Reason :=
            if weekend then
              "Insufficient stock (weekend: requires " ++ fmtD required
                ++ " units, only " ++ fmtD availableQuantity ++ " available after reserve)"
            else
              "Insufficient stock (requires " ++ fmtD required
                ++ " units, only " ++ fmtD availableQuantity ++ " available after reserve)"
          Warehouse := request.WarehouseLocation }

/-! ## Machine integers: basic facts -/

theorem wrapInt64_of_isInt64 {x : Int} (h : IsInt64 x) : wrapInt64 x = x := by
  unfold IsInt64 at h
  unfold wrapInt64
  omega

theorem isInt64_wrapInt64 (x : Int) : IsInt64 (wrapInt64 x) := by
  unfold IsInt64 wrapInt64
  omega

/-! ## Rounding: basic facts -/

theorem bitLengthAux_spec (fuel : Nat) :
    ∀ n : Nat, n ≤ fuel →
      n < 2 ^ bitLengthAux fuel n ∧ (n ≠ 0 → 2 ^ (bitLengthAux fuel n - 1) ≤ n) := by
  induction fuel with
  | zero =>
    intro n hn
    have h0 : n = 0 := by omega
    subst h0
    simp [bitLengthAux]
  | succ f ih =>
    intro n hn
    by_cases h0 : n = 0
    · subst h0
      simp [bitLengthAux]
    · have hhalf : n / 2 ≤ f := by omega
      obtain ⟨hlt, hge⟩ := ih (n / 2) hhalf
      have hstep : bitLengthAux (f + 1) n = bitLengthAux f (n / 2) + 1 := by
        simp [bitLengthAux, h0]
      rw [hstep]
      refine ⟨?_, fun _ => ?_⟩
      · rw [Nat.pow_succ]
        omega
      · by_cases h1 : n / 2 = 0
        · have hb : bitLengthAux f (n / 2) = 0 := by
            rw [h1]
            cases f <;> simp [bitLengthAux]
          rw [hb]
          simp
          omega
        · have h2 := hge h1
          have hpos : 0 < bitLengthAux f (n / 2) := by
            rcases Nat.eq_zero_or_pos (bitLengthAux f (n / 2)) with hz | hp
            · rw [hz] at hlt
              simp at hlt
              exact absurd hlt h1
            · exact hp
          have hsplit : bitLengthAux f (n / 2) + 1 - 1 = (bitLengthAux f (n / 2) - 1) + 1 := by
            omega
          rw [hsplit, Nat.pow_succ]
          omega

theorem lt_two_pow_bitLength (n : Nat) : n < 2 ^ bitLength n :=
  (bitLengthAux_spec n n (Nat.le_refl n)).1

theorem two_pow_bitLength_le (n : Nat) (h : n ≠ 0) : 2 ^ (bitLength n - 1) ≤ n :=
  (bitLengthAux_spec n n (Nat.le_refl n)).2 h

theorem bitLength_le_of_lt {n k : Nat} (h : n < 2 ^ k) : bitLength n ≤ k := by
  by_cases h0 : n = 0
  · subst h0
    simp [bitLength, bitLengthAux]
  · have h1 := two_pow_bitLength_le n h0
    have h2 : 2 ^ (bitLength n - 1) < 2 ^ k := Nat.lt_of_le_of_lt h1 h
    have h3 : bitLength n - 1 < k := (Nat.pow_lt_pow_iff_right (by decide)).1 h2
    omega

theorem roundNearestEven_cases (n g : Nat) :
    roundNearestEven n g = n / g ∨
      (roundNearestEven n g = n / g + 1 ∧ g ≤ 2 * (n % g)) := by
  unfold roundNearestEven
  simp only
  split
  · exact Or.inl rfl
  · split
    · right
      exact ⟨rfl, by omega⟩
    · split
      · exact Or.inl rfl
      · right
        exact ⟨rfl, by omega⟩

theorem roundNearestEven_one (n : Nat) : roundNearestEven n 1 = n := by
  unfold roundNearestEven
  simp [Nat.mod_one]

/-- A value below `2^53` is its own rounding. -/
theorem roundSig53_of_lt {n : Nat} (h : n < 2 ^ 53) : roundSig53 n = n := by
  have hk : bitLength n - 53 = 0 := by
    have := bitLength_le_of_lt h
    omega
  unfold roundSig53
  simp only [hk, Nat.pow_zero, roundNearestEven_one, Nat.mul_one]

theorem roundSig53_zero : roundSig53 0 = 0 := roundSig53_of_lt (by decide)

/-- Rounding to a grid of step `g` stays inside a cell `[L * G, (L + 1) * G)`
of a coarser grid `G = g * h`, when the value is further than half a step
below the cell's upper end. -/
theorem roundNearestEven_cell (n g h L : Nat) (hg : 0 < g)
    (hlo : L * (g * h) ≤ n) (hhi : n < (L + 1) * (g * h))
    (hgap : g < 2 * ((L + 1) * (g * h) - n)) :
    L * (g * h) ≤ roundNearestEven n g * g ∧
      roundNearestEven n g * g < (L + 1) * (g * h) := by
  have hdm : g * (n / g) + n % g = n := Nat.div_add_mod n g
  have hr : n % g < g := Nat.mod_lt n hg
  have hq1 : L * h ≤ n / g := by
    rw [Nat.le_div_iff_mul_le hg]
    calc L * h * g = L * (g * h) := by ring
      _ ≤ n := hlo
  have hq2 : n / g < (L + 1) * h := by
    rw [Nat.div_lt_iff_lt_mul hg]
    calc n < (L + 1) * (g * h) := hhi
      _ = (L + 1) * h * g := by ring
  have e1 : L * (g * h) = (L * h) * g := by ring
  have e2 : (L + 1) * (g * h) = ((L + 1) * h) * g := by ring
  have hlow : (L * h) * g ≤ (n / g) * g := Nat.mul_le_mul_right g hq1
  have hcomm : (n / g) * g = g * (n / g) := Nat.mul_comm _ _
  rcases roundNearestEven_cases n g with hm | ⟨hm, htie⟩
  · rw [hm]
    constructor
    · omega
    · omega
  · rw [hm]
    have hexp : (n / g + 1) * g = (n / g) * g + g := by ring
    constructor
    · omega
    · have hq3 : n / g + 1 ≤ (L + 1) * h := hq2
      rcases Nat.lt_or_ge (n / g + 1) ((L + 1) * h) with hlt | hge
      · have := Nat.mul_lt_mul_of_pos_right hlt hg
        omega
      · have heq : n / g + 1 = (L + 1) * h := Nat.le_antisymm hq3 hge
        have : (L + 1) * (g * h) = (n / g) * g + g := by
          rw [e2, ← heq, hexp]
        omega

/-! ## The reserve: basic facts -/

theorem sign_mul_roundSig53 (m : Nat) :
    Int.sign (m : Int) * (roundSig53 m : Int) = (roundSig53 m : Int) := by
  rcases Nat.eq_zero_or_pos m with h | h
  · subst h
    simp [roundSig53_zero]
  · have : Int.sign (m : Int) = 1 := Int.sign_eq_one_of_pos (by exact_mod_cast h)
    rw [this, one_mul]

theorem toInt_reserveBuffer_natCast (n : Nat) :
    F64.toInt (reserveBuffer (n : Int)) = (reserveNat n : Int) := by
  unfold reserveBuffer F64.mul F64.ofInt
  simp only [F64.round, F64.tenth, Int.natAbs_ofNat, sign_mul_roundSig53]
  have hc : (roundSig53 n : Int) * 3602879701896397
      = ((roundSig53 n * 3602879701896397 : Nat) : Int) := by push_cast; rfl
  rw [hc]
  simp only [Int.natAbs_ofNat, sign_mul_roundSig53, F64.toInt, reserveNat]
  norm_cast

/-- The exact product of a stock level `10 * a + b` below `2^52` with the
double `0.10`, scaled by `2^55`, lies in the cell of `a`, more than half a
rounding step below the cell's upper end. -/
theorem tenth_product_cell (a b p g : Nat) (hb : b < 10)
    (hp : (10 * a + b) * 3602879701896397 = p)
    (hn : 10 * a + b ≤ 4503599627370496)
    (hg : g * 4503599627370496 ≤ p ∨ g = 1) :
    a * 36028797018963968 ≤ p ∧ p < (a + 1) * 36028797018963968 ∧
      g < 2 * ((a + 1) * 36028797018963968 - p) := by
  have h1 : a * 36028797018963968 ≤ p := by linarith
  have h2 : p < (a + 1) * 36028797018963968 := by linarith
  have h3 : g + 2 * p < 2 * ((a + 1) * 36028797018963968) := by
    rcases hg with hg | hg
    · linarith
    · linarith
  refine ⟨h1, h2, ?_⟩
  generalize (a + 1) * 36028797018963968 = X at h2 h3 ⊢
  omega

/-- Below `2^52` the double computation of the reserve is the integer
quotient by ten. -/
theorem reserveNat_eq_div {n : Nat} (hn : n ≤ 2 ^ 52) : reserveNat n = n / 10 := by
  have h52 : (2 : Nat) ^ 52 = 4503599627370496 := by norm_num
  have h53 : (2 : Nat) ^ 53 = 9007199254740992 := by norm_num
  have h55 : (2 : Nat) ^ 55 = 36028797018963968 := by norm_num
  have hn53 : n < 2 ^ 53 := by
    rw [h53]
    rw [h52] at hn
    exact Nat.lt_of_le_of_lt hn (by decide)
  unfold reserveNat
  rw [roundSig53_of_lt hn53]
  rw [h52] at hn
  have hdm : 10 * (n / 10) + n % 10 = n := Nat.div_add_mod n 10
  have hb : n % 10 < 10 := Nat.mod_lt n (by decide)
  generalize n / 10 = a at hdm ⊢
  generalize n % 10 = b at hdm hb
  subst hdm
  generalize hp : (10 * a + b) * 3602879701896397 = p
  have hp108 : p < 2 ^ 108 := by
    have h108 : (2 : Nat) ^ 108 = 324518553658426726783156020576256 := by norm_num
    rw [h108]
    linarith
  have hk : bitLength p - 53 ≤ 55 := by
    have := bitLength_le_of_lt hp108
    omega
  have hgh : 2 ^ (bitLength p - 53) * 2 ^ (55 - (bitLength p - 53)) = 2 ^ 55 := by
    rw [← Nat.pow_add]
    congr 1
    omega
  have hgpos : 0 < 2 ^ (bitLength p - 53) := by positivity
  have hgb : 2 ^ (bitLength p - 53) * 2 ^ 52 ≤ p ∨ 2 ^ (bitLength p - 53) = 1 := by
    rcases Nat.eq_zero_or_pos (bitLength p - 53) with hz | hpos
    · right
      rw [hz]
      rfl
    · left
      have hp0 : p ≠ 0 := by
        intro h0
        rw [h0] at hpos
        simp [bitLength, bitLengthAux] at hpos
      have := two_pow_bitLength_le p hp0
      have he : bitLength p - 1 = (bitLength p - 53) + 52 := by omega
      rw [he, Nat.pow_add] at this
      exact this
  unfold roundSig53
  simp only
  rw [h52] at hgb
  rw [h55] at hgh ⊢
  generalize 2 ^ (bitLength p - 53) = g at hgh hgpos hgb ⊢
  generalize 2 ^ (55 - (bitLength p - 53)) = h at hgh
  obtain ⟨c1, c2, c3⟩ := tenth_product_cell a b p g hb hp hn hgb
  rw [← hgh] at c1 c2 c3 ⊢
  have hcell := roundNearestEven_cell p g h a hgpos c1 c2 c3
  exact Nat.div_eq_of_lt_le hcell.1 hcell.2

theorem toInt_reserveBuffer_of_nonneg {S : Int} (h0 : 0 ≤ S) :
    F64.toInt (reserveBuffer S) = (reserveNat S.toNat : Int) := by
  have h := toInt_reserveBuffer_natCast S.toNat
  rwa [Int.toNat_of_nonneg h0] at h

/-- Up to `2^52` the available stock is the stock less its tenth, rounded down. -/
theorem availableStock_eq_sub_div {S : Int} (h0 : 0 ≤ S) (hS : S ≤ 2 ^ 52) :
    availableStock S = S - S / 10 := by
  have hn : S.toNat ≤ 2 ^ 52 := by
    have h52 : (2 : Int) ^ 52 = 4503599627370496 := by norm_num
    have h52n : (2 : Nat) ^ 52 = 4503599627370496 := by norm_num
    omega
  have hr := reserveNat_eq_div hn
  unfold availableStock
  rw [toInt_reserveBuffer_of_nonneg h0, hr]
  have hcast : ((S.toNat / 10 : Nat) : Int) = S / 10 := by
    rw [Int.ofNat_ediv, Int.toNat_of_nonneg h0]
    rfl
  rw [hcast]
  apply wrapInt64_of_isInt64
  unfold IsInt64
  have h52 : (2 : Int) ^ 52 = 4503599627370496 := by norm_num
  have h63 : (2 : Int) ^ 63 = 9223372036854775808 := by norm_num
  omega

/-! ## CheckAvailability: the branches -/

theorem CheckAvailability_notFound (s : AvailabilityService) (today₁ today₂ : Weekday)
    (req : Request) (e : String)
    (h : s.inventoryAdapter.GetStockLevel req.ProductID req.WarehouseLocation = .error e) :
    CheckAvailability s today₁ today₂ req =
      { Available := false
        AvailableQuantity := 0
        Reason := "Product not found in specified warehouse"
        Warehouse := req.WarehouseLocation } := by
  simp only [CheckAvailability, h]

/-- In every branch after a successful lookup the verdict carries the
available stock. -/
theorem CheckAvailability_availableQuantity (s : AvailabilityService)
    (today₁ today₂ : Weekday) (req : Request) (S : Int)
    (h : s.inventoryAdapter.GetStockLevel req.ProductID req.WarehouseLocation = .ok S) :
    (CheckAvailability s today₁ today₂ req).AvailableQuantity = availableStock S := by
  simp only [CheckAvailability, h]
  split
  · rfl
  · split <;> rfl

/-- After a successful lookup of a non-zero stock level, the flag is the
comparison the code makes. -/
theorem CheckAvailability_available (s : AvailabilityService)
    (today₁ today₂ : Weekday) (req : Request) (S : Int)
    (h : s.inventoryAdapter.GetStockLevel req.ProductID req.WarehouseLocation = .ok S)
    (hS : S ≠ 0) :
    (CheckAvailability s today₁ today₂ req).Available =
      decide (requiredQuantity (isWeekend today₁) req.Quantity ≤ availableStock S) := by
  simp only [CheckAvailability, h, if_neg hS]
  split
  · next hle => simp [hle]
  · next hle => simp [hle]

/-- Without overflow of the doubling, the flag is the comparison with the
mathematical product. -/
theorem CheckAvailability_available_iff (s : AvailabilityService)
    (today : Weekday) (today₂ : Weekday) (req : Request) (S : Int)
    (h : s.inventoryAdapter.GetStockLevel req.ProductID req.WarehouseLocation = .ok S)
    (hS : S ≠ 0) (hq : -(2 : Int) ^ 62 ≤ req.Quantity) (hq2 : req.Quantity < 2 ^ 62) :
    (CheckAvailability s today today₂ req).Available = true ↔
      req.Quantity * (if isWeekend today then 2 else 1) ≤
        (CheckAvailability s today today₂ req).AvailableQuantity := by
  rw [CheckAvailability_available s today today₂ req S h hS,
    CheckAvailability_availableQuantity s today today₂ req S h]
  have h62 : (2 : Int) ^ 62 = 4611686018427387904 := by norm_num
  have hw : wrapInt64 (req.Quantity * 2) = req.Quantity * 2 := by
    apply wrapInt64_of_isInt64
    unfold IsInt64
    have h63 : (2 : Int) ^ 63 = 9223372036854775808 := by norm_num
    omega
  cases hwk : isWeekend today <;> simp [requiredQuantity, hw]

/-! ## The reserve buffer (C1) -/

/-- C1, counterexample: at stock level 6755399441055749 (below `2^53`) the
exact tenth is 675539944105574.9 and truncates to 675539944105574, so the
claim gives 6079859496950175; the double product rounds up to
675539944105575.0 and the verdict carries 6079859496950174. -/
theorem C1_counterexample :
    (CheckAvailability (NewAvailabilityService (constantAdapter 6755399441055749))
        Weekday.Monday Weekday.Monday ⟨"PROD-123", 1, "DE-Berlin"⟩).AvailableQuantity
      = 6079859496950174 ∧
    (6755399441055749 : Int) - 6755399441055749 / 10 = 6079859496950175 :=
  ⟨by set_option maxRecDepth 100000 in rfl, by decide⟩

/-- C1, amended: for every found stock level `S` with `0 ≤ S ≤ 2^52`, every
request and any days read from the clock, the verdict's available quantity
is `S` less the tenth of `S` truncated toward zero, in the sufficient, the
insufficient and the zero-stock branch alike. -/
theorem C1_availableQuantity_truncated (s : AvailabilityService)
    (today₁ today₂ : Weekday) (req : Request) (S : Int)
    (hfound : s.inventoryAdapter.GetStockLevel req.ProductID req.WarehouseLocation = .ok S)
    (h0 : 0 ≤ S) (hS : S ≤ 2 ^ 52) :
    (CheckAvailability s today₁ today₂ req).AvailableQuantity = S - S / 10 := by
  rw [CheckAvailability_availableQuantity s today₁ today₂ req S hfound]
  exact availableStock_eq_sub_div h0 hS

/-- C1, witness: stock 25 (PROD-456 at DE-Berlin) leaves 23. -/
theorem C1_availableQuantity_truncated_witness :
    (0 : Int) ≤ 25 ∧ (25 : Int) ≤ 2 ^ 52 ∧
    (CheckAvailability mockService Weekday.Monday Weekday.Monday
        ⟨"PROD-456", 24, "DE-Berlin"⟩).AvailableQuantity = 25 - 25 / 10 :=
  ⟨by decide, by decide,
    C1_availableQuantity_truncated mockService Weekday.Monday Weekday.Monday
      ⟨"PROD-456", 24, "DE-Berlin"⟩ 25 rfl (by decide) (by decide)⟩

/-! ## The comparison (C2) -/

/-- C2, the code at the failing input: on a Saturday a request for `2^62`
units of a product with stock 100 is reported available, although the
available quantity 90 is below twice the requested quantity: the doubling
`req.Quantity * 2` wraps around to `-2^63`. -/
theorem C2_weekend_doubling_overflows :
    (CheckAvailability mockService Weekday.Saturday Weekday.Saturday
        ⟨"PROD-123", 4611686018427387904, "DE-Berlin"⟩).Available = true ∧
    (CheckAvailability mockService Weekday.Saturday Weekday.Saturday
        ⟨"PROD-123", 4611686018427387904, "DE-Berlin"⟩).AvailableQuantity = 90 ∧
    requiredQuantity (isWeekend Weekday.Saturday) 4611686018427387904
      = -9223372036854775808 ∧
    ¬ ((4611686018427387904 : Int) * 2 ≤ 90) := by
  decide

/-! ## Lookup misses and empty stock (C3, C4) -/

/-- C3: when the stock lookup reports an error, the verdict is not available,
quantity 0, reason "Product not found in specified warehouse", whatever the
requested quantity and the days read from the clock. -/
theorem C3_notFound_verdict (s : AvailabilityService) (today₁ today₂ : Weekday)
    (req : Request) (e : String)
    (hmiss : s.inventoryAdapter.GetStockLevel req.ProductID req.WarehouseLocation = .error e) :
    CheckAvailability s today₁ today₂ req =
      { Available := false
        AvailableQuantity := 0
        Reason := "Product not found in specified warehouse"
        Warehouse := req.WarehouseLocation } :=
  CheckAvailability_notFound s today₁ today₂ req e hmiss

/-- C3, witness: a known product (PROD-123) in a warehouse where it is not
stocked, on a Saturday. -/
theorem C3_notFound_verdict_witness :
    mockService.inventoryAdapter.GetStockLevel "PROD-123" "UK-London"
      = .error (notFoundError "PROD-123" "UK-London") ∧
    CheckAvailability mockService Weekday.Saturday Weekday.Saturday
        ⟨"PROD-123", 5, "UK-London"⟩ =
      { Available := false
        AvailableQuantity := 0
        Reason := "Product not found in specified warehouse"
        Warehouse := "UK-London" } :=
  ⟨rfl, C3_notFound_verdict mockService Weekday.Saturday Weekday.Saturday
    ⟨"PROD-123", 5, "UK-London"⟩ (notFoundError "PROD-123" "UK-London") rfl⟩

/-- C4: when the lookup finds stock level 0, the verdict is not available,
quantity 0, reason "Product is out of stock", for every requested quantity
(also zero or negative ones) and any days read from the clock. -/
theorem C4_outOfStock_verdict (s : AvailabilityService) (today₁ today₂ : Weekday)
    (req : Request)
    (hfound : s.inventoryAdapter.GetStockLevel req.ProductID req.WarehouseLocation = .ok 0) :
    CheckAvailability s today₁ today₂ req =
      { Available := false
        AvailableQuantity := 0
        Reason := "Product is out of stock"
        Warehouse := req.WarehouseLocation } := by
  have h0 : availableStock 0 = 0 := by decide
  simp only [CheckAvailability, hfound, if_true, h0]

/-- C4, witness: a negative quantity of the out-of-stock product. -/
theorem C4_outOfStock_verdict_witness :
    mockService.inventoryAdapter.GetStockLevel "PROD-789" "DE-Berlin" = .ok 0 ∧
    CheckAvailability mockService Weekday.Sunday Weekday.Sunday
        ⟨"PROD-789", -5, "DE-Berlin"⟩ =
      { Available := false
        AvailableQuantity := 0
        Reason := "Product is out of stock"
        Warehouse := "DE-Berlin" } :=
  ⟨rfl, C4_outOfStock_verdict mockService Weekday.Sunday Weekday.Sunday
    ⟨"PROD-789", -5, "DE-Berlin"⟩ rfl⟩

/-! ## Reason texts (C5, C6) -/

/-- When the doubling does not wrap around below (`Q ≥ -2^62`), a request
whose required quantity (`Q`, or `2 * Q` under the weekend flag) is within the
available quantity takes the sufficient branch, with the reason text of the
flag. -/
theorem sufficient_reason_of_no_underflow (s : AvailabilityService)
    (today₁ today₂ : Weekday) (weekend : Bool) (req : Request) (S : Int)
    (hfound : s.inventoryAdapter.GetStockLevel req.ProductID req.WarehouseLocation = .ok S)
    (hS : 0 < S) (hq : -(2 : Int) ^ 62 ≤ req.Quantity)
    (hflag₁ : isWeekend today₁ = weekend) (hflag₂ : isWeekend today₂ = weekend)
    (hsuff : req.Quantity * (if weekend then 2 else 1) ≤
      (CheckAvailability s today₁ today₂ req).AvailableQuantity) :
    (CheckAvailability s today₁ today₂ req).Available = true ∧
    (CheckAvailability s today₁ today₂ req).Reason =
      if weekend then
        "Sufficient stock available (weekend: requires " ++ fmtD (2 * req.Quantity)
          ++ " units in stock for " ++ fmtD req.Quantity ++ " order)"
      else "Sufficient stock available" := by
  rw [CheckAvailability_availableQuantity s today₁ today₂ req S hfound] at hsuff
  have hS0 : S ≠ 0 := by omega
  have hrange := isInt64_wrapInt64 (S - F64.toInt (reserveBuffer S))
  have hreq : requiredQuantity weekend req.Quantity =
      req.Quantity * (if weekend then 2 else 1) := by
    cases weekend
    · simp [requiredQuantity]
    · simp only [requiredQuantity, if_true]
      apply wrapInt64_of_isInt64
      simp only [if_true] at hsuff
      unfold availableStock at hsuff
      unfold IsInt64 at hrange ⊢
      have h62 : (2 : Int) ^ 62 = 4611686018427387904 := by norm_num
      have h63 : (2 : Int) ^ 63 = 9223372036854775808 := by norm_num
      omega
  have hle : requiredQuantity weekend req.Quantity ≤ availableStock S := by
    rw [hreq]
    exact hsuff
  simp only [CheckAvailability, hfound, if_neg hS0, hflag₁, hflag₂, if_pos hle, true_and]
  cases weekend
  · simp
  · simp only [if_true] at hreq
    simp only [if_true, hreq, Int.mul_comm]

/-- C5: for every found stock level `S > 0` and every request with a quantity
`Q ≥ 1`, when the available quantity is at least the required quantity (`Q`
on a weekday, `2 * Q` on a weekend), the verdict is available and the reason
is exactly "Sufficient stock available" when the weekend flag is false, and
exactly "Sufficient stock available (weekend: requires R units in stock for Q
order)" with `R = 2 * Q` in decimal when it is true; the flag is the one that
both clock readings of the call give. -/
theorem C5_sufficient_reason (s : AvailabilityService) (today₁ today₂ : Weekday)
    (weekend : Bool) (req : Request) (S : Int)
    (hfound : s.inventoryAdapter.GetStockLevel req.ProductID req.WarehouseLocation = .ok S)
    (hS : 0 < S) (hq : 1 ≤ req.Quantity)
    (hflag₁ : isWeekend today₁ = weekend) (hflag₂ : isWeekend today₂ = weekend)
    (hsuff : req.Quantity * (if weekend then 2 else 1) ≤
      (CheckAvailability s today₁ today₂ req).AvailableQuantity) :
    (CheckAvailability s today₁ today₂ req).Available = true ∧
    (CheckAvailability s today₁ today₂ req).Reason =
      if weekend then
        "Sufficient stock available (weekend: requires " ++ fmtD (2 * req.Quantity)
          ++ " units in stock for " ++ fmtD req.Quantity ++ " order)"
      else "Sufficient stock available" := by
  have hlow : -(2 : Int) ^ 62 ≤ req.Quantity := by
    have h62 : (2 : Int) ^ 62 = 4611686018427387904 := by norm_num
    omega
  exact sufficient_reason_of_no_underflow s today₁ today₂ weekend req S hfound hS hlow
    hflag₁ hflag₂ hsuff

/-- C5, witness: stock 500, quantity 200, the first clock reading on a
Saturday and the second on a Sunday: 450 available, 400 required. -/
theorem C5_sufficient_reason_witness :
    (CheckAvailability mockService Weekday.Saturday Weekday.Sunday
        ⟨"PROD-202", 200, "UK-London"⟩).Available = true ∧
    (CheckAvailability mockService Weekday.Saturday Weekday.Sunday
        ⟨"PROD-202", 200, "UK-London"⟩).Reason =
      "Sufficient stock available (weekend: requires 400 units in stock for 200 order)" :=
  C5_sufficient_reason mockService Weekday.Saturday Weekday.Sunday true
    ⟨"PROD-202", 200, "UK-London"⟩ 500 rfl (by decide) (by decide) rfl rfl (by decide)

/-- C6, the code at the failing input: on a Saturday a request for `2^62`
units of a product with stock 25 has the available quantity 23 below twice
the requested quantity, and the verdict is available with the sufficient
reason and the wrapped requirement `-2^63` in its text. -/
theorem C6_weekend_overflow_reason :
    CheckAvailability mockService Weekday.Saturday Weekday.Saturday
        ⟨"PROD-456", 4611686018427387904, "DE-Berlin"⟩ =
      { Available := true
        AvailableQuantity := 23
        Reason := "Sufficient stock available (weekend: requires -9223372036854775808 units in stock for 4611686018427387904 order)"
        Warehouse := "DE-Berlin" } ∧
    (23 : Int) < 2 * 4611686018427387904 := by
  decide

/-! ## The warehouse field (C7) -/

/-- C7: for every request, every lookup outcome and any days read from the
clock, the verdict's warehouse is the request's warehouse location. -/
theorem C7_warehouse_echo (s : AvailabilityService) (today₁ today₂ : Weekday)
    (req : Request) :
    (CheckAvailability s today₁ today₂ req).Warehouse = req.WarehouseLocation := by
  unfold CheckAvailability
  split
  · rfl
  · split
    · rfl
    · split <;> rfl

/-! ## Requests at the threshold (C8) -/

/-- C8, counterexample: stock 10 with quantity 9 (the test
`ExactlyAtThreshold`) is refused on a Saturday: 18 units are required. -/
theorem C8_counterexample :
    mockService.inventoryAdapter.GetStockLevel "PROD-101" "DE-Berlin" = .ok 10 ∧
    (9 : Int) = 10 - 10 / 10 ∧
    CheckAvailability mockService Weekday.Saturday Weekday.Saturday
        ⟨"PROD-101", 9, "DE-Berlin"⟩ =
      { Available := false
        AvailableQuantity := 9
        Reason := "Insufficient stock (weekend: requires 18 units, only 9 available after reserve)"
        Warehouse := "DE-Berlin" } :=
  ⟨rfl, by decide, by decide⟩

/-- C8, amended: when the day that sets the required quantity is not a
Saturday or Sunday, for every found stock level `S ≥ 1` a request whose
quantity is exactly the available quantity of the verdict is available; for
`S ≤ 2^52` that quantity is `S` less its truncated tenth. -/
theorem C8_threshold_weekday (s : AvailabilityService) (today₁ today₂ : Weekday)
    (req : Request) (S : Int)
    (hfound : s.inventoryAdapter.GetStockLevel req.ProductID req.WarehouseLocation = .ok S)
    (hS : 1 ≤ S) (hday : isWeekend today₁ = false)
    (hq : req.Quantity = (CheckAvailability s today₁ today₂ req).AvailableQuantity) :
    (CheckAvailability s today₁ today₂ req).Available = true ∧
    (S ≤ 2 ^ 52 → req.Quantity = S - S / 10) := by
  rw [CheckAvailability_availableQuantity s today₁ today₂ req S hfound] at hq
  constructor
  · rw [CheckAvailability_available s today₁ today₂ req S hfound (by omega), hday]
    simp [requiredQuantity, hq]
  · intro h52
    rw [hq]
    exact availableStock_eq_sub_div (by omega) h52

/-- C8, witness: stock 200 with quantity 180 on a Monday. -/
theorem C8_threshold_weekday_witness :
    (CheckAvailability mockService Weekday.Monday Weekday.Monday
        ⟨"PROD-404", 180, "DE-Berlin"⟩).Available = true ∧
    ((200 : Int) ≤ 2 ^ 52 → (180 : Int) = 200 - 200 / 10) :=
  C8_threshold_weekday mockService Weekday.Monday Weekday.Monday
    ⟨"PROD-404", 180, "DE-Berlin"⟩ 200 rfl (by decide) rfl (by decide)

/-! ## The documentation table (C9) -/

/-- C9, counterexample: the table shows 22 for stock 25 (PROD-456 at
DE-Berlin); the verdict carries 23. -/
theorem C9_counterexample :
    ((25 : Int), (22 : Int)) ∈ docsTable ∧
    mockService.inventoryAdapter.GetStockLevel "PROD-456" "DE-Berlin" = .ok 25 ∧
    (CheckAvailability mockService Weekday.Monday Weekday.Monday
        ⟨"PROD-456", 1, "DE-Berlin"⟩).AvailableQuantity = 23 ∧
    (CheckAvailability mockService Weekday.Monday Weekday.Monday
        ⟨"PROD-456", 1, "DE-Berlin"⟩).AvailableQuantity ≠ 22 :=
  ⟨by decide, rfl, by decide, by decide⟩

/-- C9, amended: for every row of the table, the verdict's available quantity
at the row's stock level is the row's "Available After Reserve" value, except
in the rows for stock 25, 75, 15 and 5, where it is one more than the table
says (23, 68, 14 and 5). -/
theorem C9_docs_table (s : AvailabilityService) (today₁ today₂ : Weekday)
    (req : Request) (S A : Int)
    (hfound : s.inventoryAdapter.GetStockLevel req.ProductID req.WarehouseLocation = .ok S)
    (hrow : (S, A) ∈ docsTable) :
    (CheckAvailability s today₁ today₂ req).AvailableQuantity =
      if S = 25 ∨ S = 75 ∨ S = 15 ∨ S = 5 then A + 1 else A := by
  rw [CheckAvailability_availableQuantity s today₁ today₂ req S hfound]
  simp only [docsTable, List.mem_cons, Prod.mk.injEq, List.mem_singleton, List.not_mem_nil,
    or_false] at hrow
  rcases hrow with h | h | h | h | h | h | h | h | h | h | h | h | h <;>
    (obtain ⟨rfl, rfl⟩ := h; decide)

/-- C9, witness: the row for stock 5 (PROD-505 at US-NewYork) says 4, the
verdict carries 5. -/
theorem C9_docs_table_witness :
    ((5 : Int), (4 : Int)) ∈ docsTable ∧
    (CheckAvailability mockService Weekday.Monday Weekday.Monday
        ⟨"PROD-505", 5, "US-NewYork"⟩).AvailableQuantity = 4 + 1 :=
  ⟨by decide,
    C9_docs_table mockService Weekday.Monday Weekday.Monday
      ⟨"PROD-505", 5, "US-NewYork"⟩ 5 4 rfl (by decide)⟩

/-! ## The weekend rule and the available quantity (C10) -/

/-- C10: for every request and every lookup outcome, the verdict's available
quantity is the same whatever days the clock shows: the weekend rule does
not enter it. -/
theorem C10_availableQuantity_weekend_independent (s : AvailabilityService)
    (weekend₁ weekend₂ weekday₁ weekday₂ : Weekday) (req : Request) :
    (CheckAvailability s weekend₁ weekend₂ req).AvailableQuantity =
      (CheckAvailability s weekday₁ weekday₂ req).AvailableQuantity := by
  cases hl : s.inventoryAdapter.GetStockLevel req.ProductID req.WarehouseLocation with
  | error e =>
    rw [CheckAvailability_notFound s weekend₁ weekend₂ req e hl,
      CheckAvailability_notFound s weekday₁ weekday₂ req e hl]
  | ok S =>
    rw [CheckAvailability_availableQuantity s weekend₁ weekend₂ req S hl,
      CheckAvailability_availableQuantity s weekday₁ weekday₂ req S hl]

/-! ## The reserve: bounds for every stock level -/

theorem roundNearestEven_mul_le (n g : Nat) : roundNearestEven n g * g ≤ n + g := by
  have hdiv : n / g * g ≤ n := Nat.div_mul_le_self n g
  rcases roundNearestEven_cases n g with hm | ⟨hm, _⟩
  · rw [hm]
    omega
  · rw [hm]
    have hexp : (n / g + 1) * g = n / g * g + g := by ring
    omega

/-- Rounding to 53 bits at most doubles a value. -/
theorem roundSig53_le_two_mul (m : Nat) : roundSig53 m ≤ 2 * m := by
  rcases Nat.eq_zero_or_pos m with h0 | hpos
  · subst h0
    rw [roundSig53_zero]
  · have hm : m ≠ 0 := by omega
    have hstep : 2 ^ (bitLength m - 53) ≤ m := by
      have h1 : 2 ^ (bitLength m - 53) ≤ 2 ^ (bitLength m - 1) :=
        Nat.pow_le_pow_right (by decide) (by omega)
      exact Nat.le_trans h1 (two_pow_bitLength_le m hm)
    have hround := roundNearestEven_mul_le m (2 ^ (bitLength m - 53))
    unfold roundSig53
    simp only
    omega

/-- The reserve never exceeds the stock level. -/
theorem reserveNat_le (n : Nat) : reserveNat n ≤ n := by
  unfold reserveNat
  have h1 := roundSig53_le_two_mul n
  have h2 := roundSig53_le_two_mul (roundSig53 n * 3602879701896397)
  have h3 : roundSig53 n * 3602879701896397 ≤ 2 * n * 3602879701896397 :=
    Nat.mul_le_mul_right _ h1
  have h55 : (2 : Nat) ^ 55 = 36028797018963968 := by norm_num
  rw [h55]
  apply Nat.div_le_of_le_mul
  generalize roundSig53 (roundSig53 n * 3602879701896397) = x at h2 ⊢
  generalize roundSig53 n * 3602879701896397 = y at h2 h3
  linarith

theorem toInt_reserveBuffer_neg (S : Int) :
    F64.toInt (reserveBuffer (-S)) = -F64.toInt (reserveBuffer S) := by
  simp only [reserveBuffer, F64.mul, F64.ofInt, F64.round, F64.tenth, F64.toInt,
    Int.sign_neg, Int.natAbs_neg, Int.neg_mul, Int.neg_tdiv]

/-- For a non-negative stock level the truncated reserve lies between `0` and
the stock level. -/
theorem toInt_reserveBuffer_bounds_of_nonneg {S : Int} (h0 : 0 ≤ S) :
    0 ≤ F64.toInt (reserveBuffer S) ∧ F64.toInt (reserveBuffer S) ≤ S := by
  rw [toInt_reserveBuffer_of_nonneg h0]
  have h := reserveNat_le S.toNat
  omega

/-- For a negative stock level the truncated reserve lies between the stock
level and `0`. -/
theorem toInt_reserveBuffer_bounds_of_nonpos {S : Int} (h0 : S ≤ 0) :
    S ≤ F64.toInt (reserveBuffer S) ∧ F64.toInt (reserveBuffer S) ≤ 0 := by
  have h := toInt_reserveBuffer_bounds_of_nonneg (S := -S) (by omega)
  rw [toInt_reserveBuffer_neg] at h
  omega

/-- On every `int` the conversion of the reserve to `int` is in range and the
subtraction does not overflow. -/
theorem availableStock_of_isInt64 {S : Int} (hS : IsInt64 S) :
    IsInt64 (F64.toInt (reserveBuffer S)) ∧
      availableStock S = S - F64.toInt (reserveBuffer S) := by
  unfold IsInt64 at hS
  have hb : IsInt64 (F64.toInt (reserveBuffer S)) ∧
      IsInt64 (S - F64.toInt (reserveBuffer S)) := by
    unfold IsInt64
    rcases Int.le_total 0 S with h0 | h0
    · have := toInt_reserveBuffer_bounds_of_nonneg h0
      omega
    · have := toInt_reserveBuffer_bounds_of_nonpos h0
      omega
  exact ⟨hb.1, wrapInt64_of_isInt64 hb.2⟩

/-! ## Totality (C11) -/

/-- C11: CheckAvailability is total: for every request value, every adapter
answer and any days read from the clock it returns a verdict whose quantity
is a well-formed `int`; and for every `int` stock level the conversion of the
reserve to `int` is in range and the subtraction does not overflow, so that no
step of the computation is undefined. -/
theorem C11_checkAvailability_total (s : AvailabilityService) (today₁ today₂ : Weekday)
    (req : Request) :
    ∃ r : Response, CheckAvailability s today₁ today₂ req = r ∧
      IsInt64 r.AvailableQuantity ∧
      ∀ S : Int,
        s.inventoryAdapter.GetStockLevel req.ProductID req.WarehouseLocation = .ok S →
        IsInt64 S →
          IsInt64 (F64.toInt (reserveBuffer S)) ∧
            r.AvailableQuantity = S - F64.toInt (reserveBuffer S) := by
  refine ⟨_, rfl, ?_, ?_⟩
  · cases hl : s.inventoryAdapter.GetStockLevel req.ProductID req.WarehouseLocation with
    | error e =>
      rw [CheckAvailability_notFound s today₁ today₂ req e hl]
      have hzero : IsInt64 0 := ⟨by decide, by decide⟩
      exact hzero
    | ok S =>
      rw [CheckAvailability_availableQuantity s today₁ today₂ req S hl]
      exact isInt64_wrapInt64 _
  · intro S hl hS
    rw [CheckAvailability_availableQuantity s today₁ today₂ req S hl]
    exact availableStock_of_isInt64 hS

/-! ## The HTTP handler (C12, C13) -/

/-- C12: for a POST request whose body decodes to `req`, the handler answers
400 exactly when the product id is empty or the quantity is not positive or
the warehouse location is empty, and otherwise answers 200 with the verdict of
CheckAvailability for `req`, which is the only call it makes; on every HTTP
request, each call of the evaluator has a quantity of at least 1 and
non-empty identifiers. -/
theorem C12_post_validation (h : AvailabilityHandler) (today₁ today₂ : Weekday)
    (req : Request) :
    ((HandleCheckAvailability h today₁ today₂ ⟨"POST", .ok req⟩).response.Status = 400 ↔
      (req.ProductID = "" ∨ req.Quantity ≤ 0 ∨ req.WarehouseLocation = "")) ∧
    (¬ (req.ProductID = "" ∨ req.Quantity ≤ 0 ∨ req.WarehouseLocation = "") →
      HandleCheckAvailability h today₁ today₂ ⟨"POST", .ok req⟩ =
        ⟨⟨200, .json (CheckAvailability h.availabilityService today₁ today₂ req)⟩, [req]⟩) ∧
    (∀ r : HttpRequest, ∀ c ∈ (HandleCheckAvailability h today₁ today₂ r).calls,
      1 ≤ c.Quantity ∧ c.ProductID ≠ "" ∧ c.WarehouseLocation ≠ "") := by
  refine ⟨?_, ?_, ?_⟩
  · by_cases hp : req.ProductID = ""
    · simp [HandleCheckAvailability, hp]
    · by_cases hq : req.Quantity ≤ 0
      · simp [HandleCheckAvailability, hp, hq]
      · by_cases hw : req.WarehouseLocation = ""
        · simp [HandleCheckAvailability, hp, hq, hw]
        · simp [HandleCheckAvailability, hp, hq, hw]
  · intro hvalid
    have hp : ¬ req.ProductID = "" := fun hc => hvalid (Or.inl hc)
    have hq : ¬ req.Quantity ≤ 0 := fun hc => hvalid (Or.inr (Or.inl hc))
    have hw : ¬ req.WarehouseLocation = "" := fun hc => hvalid (Or.inr (Or.inr hc))
    simp [HandleCheckAvailability, hp, hq, hw]
  · intro r c hc
    obtain ⟨method, body⟩ := r
    by_cases hm : method = "POST"
    · cases body with
      | error err => simp [HandleCheckAvailability, hm] at hc
      | ok req =>
        by_cases hp : req.ProductID = ""
        · simp [HandleCheckAvailability, hm, hp] at hc
        · by_cases hq : req.Quantity ≤ 0
          · simp [HandleCheckAvailability, hm, hp, hq] at hc
          · by_cases hw : req.WarehouseLocation = ""
            · simp [HandleCheckAvailability, hm, hp, hq, hw] at hc
            · simp [HandleCheckAvailability, hm, hp, hq, hw] at hc
              subst hc
              exact ⟨by omega, hp, hw⟩
    · simp [HandleCheckAvailability, hm] at hc

/-- C13: for every request whose method is not POST, whatever its body, the
handler answers 405 with the message "Method not allowed. Use POST" and makes
no call of the evaluator. -/
theorem C13_method_not_allowed (h : AvailabilityHandler) (today₁ today₂ : Weekday)
    (r : HttpRequest) (hmethod : r.Method ≠ "POST") :
    HandleCheckAvailability h today₁ today₂ r =
      ⟨⟨405, .text "Method not allowed. Use POST"⟩, []⟩ := by
  simp [HandleCheckAvailability, hmethod]

/-- C13, witness: a GET request with a valid body. -/
theorem C13_method_not_allowed_witness :
    "GET" ≠ "POST" ∧
    HandleCheckAvailability mockHandler Weekday.Monday Weekday.Monday
        ⟨"GET", .ok ⟨"PROD-123", 5, "DE-Berlin"⟩⟩ =
      ⟨⟨405, .text "Method not allowed. Use POST"⟩, []⟩ :=
  ⟨by decide,
    C13_method_not_allowed mockHandler Weekday.Monday Weekday.Monday
      ⟨"GET", .ok ⟨"PROD-123", 5, "DE-Berlin"⟩⟩ (by decide)⟩

/-! ## The file adapter (C14, C15) -/

/-- C14: for every loaded inventory and every pair, GetStockLevel of the file
adapter returns the not-found error exactly when no item matches both the
product id and the warehouse, and otherwise the stock level of the first item
in list order that matches both. -/
theorem C14_getStockLevel_first_match (inventory : List InventoryItem)
    (productID warehouse : String) :
    ((FileInventoryAdapter inventory).GetStockLevel productID warehouse
        = .error (notFoundError productID warehouse) ↔
      ∀ item ∈ inventory, ¬ (item.ProductID = productID ∧ item.Warehouse = warehouse)) ∧
    (FileInventoryAdapter inventory).GetStockLevel productID warehouse =
      match inventory.find?
          (fun item => decide (item.ProductID = productID ∧ item.Warehouse = warehouse)) with
      | some item => .ok item.StockLevel
      | none => .error (notFoundError productID warehouse) := by
  unfold FileInventoryAdapter
  simp only
  induction inventory with
  | nil => simp [FileInventoryAdapter.GetStockLevel]
  | cons item rest ih =>
    by_cases hmatch : item.ProductID = productID ∧ item.Warehouse = warehouse
    · simp [FileInventoryAdapter.GetStockLevel, hmatch]
    · obtain ⟨ih1, ih2⟩ := ih
      constructor
      · simp only [FileInventoryAdapter.GetStockLevel, if_neg hmatch, List.mem_cons,
          forall_eq_or_imp]
        rw [ih1]
        exact ⟨fun hrest => ⟨hmatch, hrest⟩, fun hall => hall.2⟩
      · simp only [FileInventoryAdapter.GetStockLevel, if_neg hmatch]
        rw [ih2, List.find?_cons_of_neg]
        simpa using hmatch

/-- C15, counterexample: an inventory file with a negative stock level loads,
and GetStockLevel returns the negative number for the known pair. -/
theorem C15_counterexample :
    (FileInventoryAdapter [⟨"PROD-123", "DE-Berlin", -5⟩]).GetStockLevel
        "PROD-123" "DE-Berlin" = .ok (-5) ∧
    ¬ ((0 : Int) ≤ -5) :=
  ⟨rfl, by decide⟩

/-- C15, amended: for every loaded inventory whose items all have a
non-negative stock level, the quantity that GetStockLevel returns for a known
pair is non-negative. -/
theorem C15_stock_nonneg (inventory : List InventoryItem) (productID warehouse : String)
    (S : Int) (hfile : ∀ item ∈ inventory, 0 ≤ item.StockLevel)
    (hknown : (FileInventoryAdapter inventory).GetStockLevel productID warehouse = .ok S) :
    0 ≤ S := by
  unfold FileInventoryAdapter at hknown
  simp only at hknown
  induction inventory with
  | nil => simp [FileInventoryAdapter.GetStockLevel] at hknown
  | cons item rest ih =>
    by_cases hmatch : item.ProductID = productID ∧ item.Warehouse = warehouse
    · simp only [FileInventoryAdapter.GetStockLevel, if_pos hmatch, Except.ok.injEq] at hknown
      rw [← hknown]
      exact hfile item (List.mem_cons_self _ _)
    · simp only [FileInventoryAdapter.GetStockLevel, if_neg hmatch] at hknown
      exact ih (fun it hit => hfile it (List.mem_cons_of_mem _ hit)) hknown

/-- C15, witness: a two-item inventory, the second item is the match. -/
theorem C15_stock_nonneg_witness :
    (FileInventoryAdapter [⟨"PROD-123", "DE-Berlin", 100⟩,
        ⟨"PROD-123", "US-NewYork", 50⟩]).GetStockLevel "PROD-123" "US-NewYork" = .ok 50 ∧
    (0 : Int) ≤ 50 :=
  ⟨rfl,
    C15_stock_nonneg [⟨"PROD-123", "DE-Berlin", 100⟩, ⟨"PROD-123", "US-NewYork", 50⟩]
      "PROD-123" "US-NewYork" 50 (by decide) rfl⟩

/-! ## Bounds of the available quantity and of the reserve (C16, C17) -/

/-- C16: for every request, any days read from the clock and every lookup
outcome that is not found or a stock level `S` with `0 ≤ S < 2^63`, the
verdict's available quantity lies between `0` and `S` (and is `0` for not
found). -/
theorem C16_availableQuantity_bounds (s : AvailabilityService) (today₁ today₂ : Weekday)
    (req : Request)
    (hstock : ∀ S : Int,
      s.inventoryAdapter.GetStockLevel req.ProductID req.WarehouseLocation = .ok S →
        0 ≤ S ∧ S < 2 ^ 63) :
    0 ≤ (CheckAvailability s today₁ today₂ req).AvailableQuantity ∧
    (CheckAvailability s today₁ today₂ req).AvailableQuantity ≤
      (match s.inventoryAdapter.GetStockLevel req.ProductID req.WarehouseLocation with
        | .ok S => S
        | .error _ => 0) := by
  cases hl : s.inventoryAdapter.GetStockLevel req.ProductID req.WarehouseLocation with
  | error e =>
    rw [CheckAvailability_notFound s today₁ today₂ req e hl]
    exact ⟨Int.le_refl 0, Int.le_refl 0⟩
  | ok S =>
    obtain ⟨h0, h63⟩ := hstock S hl
    have hS : IsInt64 S := by
      unfold IsInt64
      have h63' : (2 : Int) ^ 63 = 9223372036854775808 := by norm_num
      omega
    rw [CheckAvailability_availableQuantity s today₁ today₂ req S hl,
      (availableStock_of_isInt64 hS).2]
    have hb := toInt_reserveBuffer_bounds_of_nonneg h0
    simp only
    omega

/-- C16, witness: stock 25 (PROD-456 at DE-Berlin) on a Saturday. -/
theorem C16_availableQuantity_bounds_witness :
    0 ≤ (CheckAvailability mockService Weekday.Saturday Weekday.Saturday
        ⟨"PROD-456", 24, "DE-Berlin"⟩).AvailableQuantity ∧
    (CheckAvailability mockService Weekday.Saturday Weekday.Saturday
        ⟨"PROD-456", 24, "DE-Berlin"⟩).AvailableQuantity ≤ 25 :=
  C16_availableQuantity_bounds mockService Weekday.Saturday Weekday.Saturday
    ⟨"PROD-456", 24, "DE-Berlin"⟩
    (fun S hS => by
      have h25 : S = 25 := (Except.ok.inj hS).symm
      subst h25
      decide)

/-- C17, counterexample: at stock level 6755399441055749 the reserve is
675539944105575, and ten times the reserve exceeds the stock level. -/
theorem C17_counterexample :
    F64.toInt (reserveBuffer 6755399441055749) = 675539944105575 ∧
    ¬ ((10 : Int) * 675539944105575 ≤ 6755399441055749) :=
  ⟨by set_option maxRecDepth 100000 in rfl, by decide⟩

/-- C17, amended: for every stock level `S ≥ 0` the reserve `r` that the
code computes satisfies `0 ≤ r ≤ S`, and for `S ≤ 2^52` it satisfies
`10 * r ≤ S`. -/
theorem C17_reserve_bounds (S : Int) (h0 : 0 ≤ S) :
    (0 ≤ F64.toInt (reserveBuffer S) ∧ F64.toInt (reserveBuffer S) ≤ S) ∧
    (S ≤ 2 ^ 52 → 10 * F64.toInt (reserveBuffer S) ≤ S) := by
  refine ⟨toInt_reserveBuffer_bounds_of_nonneg h0, fun h52 => ?_⟩
  have hn : S.toNat ≤ 2 ^ 52 := by
    have e52 : (2 : Int) ^ 52 = 4503599627370496 := by norm_num
    have e52n : (2 : Nat) ^ 52 = 4503599627370496 := by norm_num
    omega
  rw [toInt_reserveBuffer_of_nonneg h0, reserveNat_eq_div hn]
  omega

/-- C17, witness: stock 25 reserves 2. -/
theorem C17_reserve_bounds_witness :
    ((0 : Int) ≤ F64.toInt (reserveBuffer 25) ∧ F64.toInt (reserveBuffer 25) ≤ 25) ∧
    ((25 : Int) ≤ 2 ^ 52 → 10 * F64.toInt (reserveBuffer 25) ≤ 25) :=
  C17_reserve_bounds 25 (by decide)

/-! ## The verdict as a function of its inputs (C18, C19) -/

/-- C18: the verdict depends only on the request, the lookup result and the
weekend flags: two evaluations of the same request, with adapters that give
the same lookup result for it and with clock readings that give the same
weekend flags, return verdicts equal in all four fields. -/
theorem C18_verdict_deterministic (s s' : AvailabilityService)
    (today₁ today₂ today₁' today₂' : Weekday) (req : Request)
    (hlookup :
      lookupResultOf (s.inventoryAdapter.GetStockLevel req.ProductID req.WarehouseLocation) =
        lookupResultOf
          (s'.inventoryAdapter.GetStockLevel req.ProductID req.WarehouseLocation))
    (hflag₁ : isWeekend today₁ = isWeekend today₁')
    (hflag₂ : isWeekend today₂ = isWeekend today₂') :
    CheckAvailability s today₁ today₂ req = CheckAvailability s' today₁' today₂' req := by
  cases hl : s.inventoryAdapter.GetStockLevel req.ProductID req.WarehouseLocation with
  | error e =>
    cases hl' : s'.inventoryAdapter.GetStockLevel req.ProductID req.WarehouseLocation with
    | error e' =>
      rw [CheckAvailability_notFound s today₁ today₂ req e hl,
        CheckAvailability_notFound s' today₁' today₂' req e' hl']
    | ok S' =>
      rw [hl, hl'] at hlookup
      simp [lookupResultOf] at hlookup
  | ok S =>
    cases hl' : s'.inventoryAdapter.GetStockLevel req.ProductID req.WarehouseLocation with
    | error e' =>
      rw [hl, hl'] at hlookup
      simp [lookupResultOf] at hlookup
    | ok S' =>
      rw [hl, hl'] at hlookup
      simp only [lookupResultOf, StockLookupResult.Found.injEq] at hlookup
      subst hlookup
      simp only [CheckAvailability, hl, hl', hflag₁, hflag₂]

/-- C18, witness: the mock adapter and a constant adapter agree on PROD-123
at DE-Berlin; Saturday and Sunday give the same flag. -/
theorem C18_verdict_deterministic_witness :
    CheckAvailability mockService Weekday.Saturday Weekday.Saturday
        ⟨"PROD-123", 5, "DE-Berlin"⟩ =
      CheckAvailability (NewAvailabilityService (constantAdapter 100))
        Weekday.Sunday Weekday.Sunday ⟨"PROD-123", 5, "DE-Berlin"⟩ :=
  C18_verdict_deterministic mockService (NewAvailabilityService (constantAdapter 100))
    Weekday.Saturday Weekday.Saturday Weekday.Sunday Weekday.Sunday
    ⟨"PROD-123", 5, "DE-Berlin"⟩ rfl rfl rfl

/-- Without overflow of the doubling (`-2^62 ≤ q < 2^62`), for every lookup
result that is not found or any `int` stock level, a call of CheckAvailability
whose clock readings both see the same day returns the verdict of the
specification's evaluator for the flag of that day. -/
theorem CheckAvailability_refines_evaluate (s : AvailabilityService) (today : Weekday)
    (req : Request)
    (hstock : ∀ S : Int,
      s.inventoryAdapter.GetStockLevel req.ProductID req.WarehouseLocation = .ok S →
        IsInt64 S)
    (hq : -(2 : Int) ^ 62 ≤ req.Quantity) (hq' : req.Quantity < 2 ^ 62) :
    CheckAvailability s today today req =
      evaluate req
        (lookupResultOf (s.inventoryAdapter.GetStockLevel req.ProductID req.WarehouseLocation))
        (isWeekend today) := by
  cases hl : s.inventoryAdapter.GetStockLevel req.ProductID req.WarehouseLocation with
  | error e =>
    rw [CheckAvailability_notFound s today today req e hl]
    simp only [lookupResultOf, evaluate]
  | ok S =>
    have havail : availableStock S = S - F64.toInt (F64.mul (F64.ofInt S) F64.tenth) :=
      (availableStock_of_isInt64 (hstock S hl)).2
    have hreq : requiredQuantity (isWeekend today) req.Quantity =
        req.Quantity * (if isWeekend today then 2 else 1) := by
      cases isWeekend today
      · simp [requiredQuantity]
      · simp only [requiredQuantity, if_true]
        apply wrapInt64_of_isInt64
        unfold IsInt64
        have e62 : (2 : Int) ^ 62 = 4611686018427387904 := by norm_num
        have e63 : (2 : Int) ^ 63 = 9223372036854775808 := by norm_num
        omega
    by_cases hz : S = 0
    · subst hz
      have hzero : availableStock 0 = 0 := by decide
      simp only [CheckAvailability, hl, lookupResultOf, evaluate, hzero, if_true]
    · simp only [CheckAvailability, hl, lookupResultOf, evaluate, havail, hreq, if_neg hz]

/-- C19, the code at the failing input: on a Saturday, with stock 100 and the
requested quantity `2^62`, the source returns an available verdict whose
reason shows the wrapped requirement `-2^63`, while the evaluator of the
specification, for the same request, lookup result and weekend flag, refuses
the request, since twice the quantity exceeds the 90 available units. -/
theorem C19_overflow_breaks_refinement :
    CheckAvailability mockService Weekday.Saturday Weekday.Saturday
        ⟨"PROD-123", 4611686018427387904, "DE-Berlin"⟩ =
      { Available := true
        AvailableQuantity := 90
        Reason := "Sufficient stock available (weekend: requires -9223372036854775808 units in stock for 4611686018427387904 order)"
        Warehouse := "DE-Berlin" } ∧
    evaluate ⟨"PROD-123", 4611686018427387904, "DE-Berlin"⟩
        (lookupResultOf (mockService.inventoryAdapter.GetStockLevel "PROD-123" "DE-Berlin"))
        (isWeekend Weekday.Saturday) =
      { Available := false
        AvailableQuantity := 90
        Reason := "Insufficient stock (weekend: requires 9223372036854775808 units, only 90 available after reserve)"
        Warehouse := "DE-Berlin" } := by
  decide

/-! ## Monotonicity in the requested quantity (C20) -/

/-- Without overflow of the doubling, a smaller quantity of the same product
at the same warehouse is available whenever a larger one is. -/
theorem available_mono_of_no_overflow (s : AvailabilityService)
    (today₁ today₂ today₁' today₂' : Weekday) (req req' : Request)
    (hproduct : req'.ProductID = req.ProductID)
    (hwarehouse : req'.WarehouseLocation = req.WarehouseLocation)
    (hflag : isWeekend today₁' = isWeekend today₁)
    (hle : req'.Quantity ≤ req.Quantity)
    (hlow : -(2 : Int) ^ 62 ≤ req'.Quantity) (hhigh : req.Quantity < 2 ^ 62)
    (havail : (CheckAvailability s today₁ today₂ req).Available = true) :
    (CheckAvailability s today₁' today₂' req').Available = true := by
  cases hl : s.inventoryAdapter.GetStockLevel req.ProductID req.WarehouseLocation with
  | error e =>
    rw [CheckAvailability_notFound s today₁ today₂ req e hl] at havail
    simp at havail
  | ok S =>
    have hl' : s.inventoryAdapter.GetStockLevel req'.ProductID req'.WarehouseLocation
        = .ok S := by
      rw [hproduct, hwarehouse]
      exact hl
    by_cases hz : S = 0
    · subst hz
      simp [CheckAvailability, hl] at havail
    · rw [CheckAvailability_available s today₁ today₂ req S hl hz] at havail
      rw [CheckAvailability_available s today₁' today₂' req' S hl' hz, hflag]
      have e62 : (2 : Int) ^ 62 = 4611686018427387904 := by norm_num
      have e63 : (2 : Int) ^ 63 = 9223372036854775808 := by norm_num
      have hw : wrapInt64 (req.Quantity * 2) = req.Quantity * 2 := by
        apply wrapInt64_of_isInt64
        unfold IsInt64
        omega
      have hw' : wrapInt64 (req'.Quantity * 2) = req'.Quantity * 2 := by
        apply wrapInt64_of_isInt64
        unfold IsInt64
        omega
      cases hwk : isWeekend today₁
      · simp only [hwk, requiredQuantity, decide_eq_true_eq] at havail ⊢
        exact Int.le_trans hle havail
      · simp only [hwk, requiredQuantity, if_true, hw, hw', decide_eq_true_eq] at havail ⊢
        omega

/-- C20, the code at the failing input: on a Saturday, with stock 100, the
request for `2^62` units is reported available (the doubling wraps around to
`-2^63`), and the request for 46 units of the same product at the same
warehouse, with `1 ≤ 46 ≤ 2^62`, is not. -/
theorem C20_not_monotone_in_quantity :
    (CheckAvailability mockService Weekday.Saturday Weekday.Saturday
        ⟨"PROD-123", 4611686018427387904, "DE-Berlin"⟩).Available = true ∧
    (CheckAvailability mockService Weekday.Saturday Weekday.Saturday
        ⟨"PROD-123", 46, "DE-Berlin"⟩).Available = false ∧
    (1 : Int) ≤ 46 ∧ (46 : Int) ≤ 4611686018427387904 := by
  decide

/-! ## The double reserve and the integer quotient: the exact range -/

/-- The exact product of a stock level `10 * a + b` below 6755399441055749
with the double `0.10`, scaled by `2^55`, lies in the cell of `a`, more than
half a rounding step below the cell's upper end, for every rounding step up
to `2^52`. -/
theorem tenth_product_cell_fine (a b p g : Nat) (hb : b < 10)
    (hp : (10 * a + b) * 3602879701896397 = p)
    (hn : 10 * a + b ≤ 6755399441055748)
    (hg : g ≤ 4503599627370496) :
    a * 36028797018963968 ≤ p ∧ p < (a + 1) * 36028797018963968 ∧
      g < 2 * ((a + 1) * 36028797018963968 - p) := by
  have h1 : a * 36028797018963968 ≤ p := by linarith
  have h2 : p < (a + 1) * 36028797018963968 := by linarith
  have h3 : g + 2 * p < 2 * ((a + 1) * 36028797018963968) := by
    have hcase : b ≤ 8 ∨ b = 9 := by omega
    rcases hcase with hb8 | hb9
    · linarith
    · have ha : a ≤ 675539944105573 := by omega
      subst hb9
      linarith
  refine ⟨h1, h2, ?_⟩
  generalize (a + 1) * 36028797018963968 = X at h2 h3 ⊢
  omega

/-- Below 6755399441055749 the double computation of the reserve is the
integer quotient by ten. -/
theorem reserveNat_eq_div_of_lt {n : Nat} (hn : n < 6755399441055749) :
    reserveNat n = n / 10 := by
  have h52 : (2 : Nat) ^ 52 = 4503599627370496 := by norm_num
  have h53 : (2 : Nat) ^ 53 = 9007199254740992 := by norm_num
  have h55 : (2 : Nat) ^ 55 = 36028797018963968 := by norm_num
  have hn53 : n < 2 ^ 53 := by
    rw [h53]
    exact Nat.lt_trans hn (by decide)
  have hn' : n ≤ 6755399441055748 := Nat.le_of_lt_succ hn
  unfold reserveNat
  rw [roundSig53_of_lt hn53]
  have hdm : 10 * (n / 10) + n % 10 = n := Nat.div_add_mod n 10
  have hb : n % 10 < 10 := Nat.mod_lt n (by decide)
  generalize n / 10 = a at hdm ⊢
  generalize n % 10 = b at hdm hb
  subst hdm
  generalize hp : (10 * a + b) * 3602879701896397 = p
  have hp105 : p < 2 ^ 105 := by
    have h105 : (2 : Nat) ^ 105 = 40564819207303340847894502572032 := by norm_num
    rw [h105]
    linarith
  have hk : bitLength p - 53 ≤ 52 := by
    have := bitLength_le_of_lt hp105
    omega
  have hgh : 2 ^ (bitLength p - 53) * 2 ^ (55 - (bitLength p - 53)) = 2 ^ 55 := by
    rw [← Nat.pow_add]
    congr 1
    omega
  have hgpos : 0 < 2 ^ (bitLength p - 53) := by positivity
  have hgb : 2 ^ (bitLength p - 53) ≤ 2 ^ 52 := Nat.pow_le_pow_right (by decide) hk
  unfold roundSig53
  simp only
  rw [h52] at hgb
  rw [h55] at hgh ⊢
  generalize 2 ^ (bitLength p - 53) = g at hgh hgpos hgb ⊢
  generalize 2 ^ (55 - (bitLength p - 53)) = h at hgh
  obtain ⟨c1, c2, c3⟩ := tenth_product_cell_fine a b p g hb hp hn' hgb
  rw [← hgh] at c1 c2 c3 ⊢
  have hcell := roundNearestEven_cell p g h a hgpos c1 c2 c3
  exact Nat.div_eq_of_lt_le hcell.1 hcell.2

theorem toInt_reserveBuffer_eq_div {S : Int} (h0 : 0 ≤ S) (hS : S < 6755399441055749) :
    F64.toInt (reserveBuffer S) = S / 10 := by
  have hn : S.toNat < 6755399441055749 := by omega
  rw [toInt_reserveBuffer_of_nonneg h0, reserveNat_eq_div_of_lt hn, Int.ofNat_ediv,
    Int.toNat_of_nonneg h0]
  rfl

theorem availableStock_eq_sub_div_of_lt {S : Int} (h0 : 0 ≤ S)
    (hS : S < 6755399441055749) : availableStock S = S - S / 10 := by
  have hint : IsInt64 S := by
    unfold IsInt64
    have e63 : (2 : Int) ^ 63 = 9223372036854775808 := by norm_num
    omega
  rw [(availableStock_of_isInt64 hint).2, toInt_reserveBuffer_eq_div h0 hS]

/-! ## Monotonicity in the stock level (C21) -/

/-- C21, counterexample: on a Monday the stock level `2^56 + 8` leaves
64851834634135150 units available and the next stock level `2^56 + 9` only
64851834634135149, because `float64` rounds the first down to `2^56` and the
second up to `2^56 + 16`; a request for 64851834634135150 units is available
at the smaller stock level and refused at the larger one. -/
theorem C21_counterexample :
    CheckAvailability (NewAvailabilityService (constantAdapter 72057594037927944))
        Weekday.Monday Weekday.Monday ⟨"PROD-123", 64851834634135150, "DE-Berlin"⟩ =
      { Available := true
        AvailableQuantity := 64851834634135150
        Reason := "Sufficient stock available"
        Warehouse := "DE-Berlin" } ∧
    CheckAvailability (NewAvailabilityService (constantAdapter 72057594037927945))
        Weekday.Monday Weekday.Monday ⟨"PROD-123", 64851834634135150, "DE-Berlin"⟩ =
      { Available := false
        AvailableQuantity := 64851834634135149
        Reason := "Insufficient stock (requires 64851834634135150 units, only 64851834634135149 available after reserve)"
        Warehouse := "DE-Berlin" } ∧
    (72057594037927944 : Int) ≤ 72057594037927945 :=
  ⟨by set_option maxRecDepth 100000 in rfl, by set_option maxRecDepth 100000 in rfl,
    by decide⟩

/-- C21, amended: for all stock levels `0 ≤ S ≤ S' < 6755399441055749`, found
for the same request, the available quantity at `S` is at most the one at
`S'`, and when the weekend flag that sets the required quantity is the same,
a request reported available at `S` is reported available at `S'`. -/
theorem C21_monotone_in_stock (s s' : AvailabilityService)
    (today₁ today₂ today₁' today₂' : Weekday) (req : Request) (S S' : Int)
    (hfound : s.inventoryAdapter.GetStockLevel req.ProductID req.WarehouseLocation = .ok S)
    (hfound' : s'.inventoryAdapter.GetStockLevel req.ProductID req.WarehouseLocation = .ok S')
    (h0 : 0 ≤ S) (hle : S ≤ S') (hS' : S' < 6755399441055749)
    (hflag : isWeekend today₁' = isWeekend today₁) :
    (CheckAvailability s today₁ today₂ req).AvailableQuantity ≤
      (CheckAvailability s' today₁' today₂' req).AvailableQuantity ∧
    ((CheckAvailability s today₁ today₂ req).Available = true →
      (CheckAvailability s' today₁' today₂' req).Available = true) := by
  have hmono : availableStock S ≤ availableStock S' := by
    rw [availableStock_eq_sub_div_of_lt h0 (by omega),
      availableStock_eq_sub_div_of_lt (by omega) hS']
    omega
  constructor
  · rw [CheckAvailability_availableQuantity s today₁ today₂ req S hfound,
      CheckAvailability_availableQuantity s' today₁' today₂' req S' hfound']
    exact hmono
  · intro havail
    by_cases hz : S = 0
    · subst hz
      simp [CheckAvailability, hfound] at havail
    · have hz' : S' ≠ 0 := by omega
      rw [CheckAvailability_available s today₁ today₂ req S hfound hz] at havail
      rw [CheckAvailability_available s' today₁' today₂' req S' hfound' hz', hflag]
      simp only [decide_eq_true_eq] at havail ⊢
      exact Int.le_trans havail hmono

/-- C21, witness: stock 25 and stock 100, a request for 11 units, on a
Saturday and a Sunday. -/
theorem C21_monotone_in_stock_witness :
    (CheckAvailability (NewAvailabilityService (constantAdapter 25))
        Weekday.Saturday Weekday.Saturday ⟨"PROD-456", 11, "DE-Berlin"⟩).AvailableQuantity ≤
      (CheckAvailability (NewAvailabilityService (constantAdapter 100))
        Weekday.Sunday Weekday.Sunday ⟨"PROD-456", 11, "DE-Berlin"⟩).AvailableQuantity ∧
    ((CheckAvailability (NewAvailabilityService (constantAdapter 25))
        Weekday.Saturday Weekday.Saturday ⟨"PROD-456", 11, "DE-Berlin"⟩).Available = true →
      (CheckAvailability (NewAvailabilityService (constantAdapter 100))
        Weekday.Sunday Weekday.Sunday ⟨"PROD-456", 11, "DE-Berlin"⟩).Available = true) :=
  C21_monotone_in_stock (NewAvailabilityService (constantAdapter 25))
    (NewAvailabilityService (constantAdapter 100))
    Weekday.Saturday Weekday.Saturday Weekday.Sunday Weekday.Sunday
    ⟨"PROD-456", 11, "DE-Berlin"⟩ 25 100 rfl rfl (by decide) (by decide) (by decide) rfl

/-! ## The double reserve against the integer quotient (C22) -/

/-- C22, counterexample: at the stock level 6755399441055749, which is below
`2^53`, the double product `float64(S) * 0.10` rounds up to 675539944105575.0,
one more than the integer quotient 675539944105574. -/
theorem C22_counterexample :
    (0 : Int) ≤ 6755399441055749 ∧ (6755399441055749 : Int) ≤ 2 ^ 53 ∧
    F64.toInt (F64.mul (F64.ofInt 6755399441055749) F64.tenth) = 675539944105575 ∧
    (6755399441055749 : Int) / 10 = 675539944105574 :=
  ⟨by decide, by decide, by set_option maxRecDepth 100000 in rfl, by decide⟩

/-- C22, amended: for every stock level `S` with `0 ≤ S < 6755399441055749`
the reserve `int(float64(S) * 0.10)`, computed in double arithmetic with
truncation toward zero, is the integer quotient of `S` by ten; the bound is
the first stock level at which the two differ. -/
theorem C22_double_reserve_eq_quotient (S : Int) (h0 : 0 ≤ S)
    (hS : S < 6755399441055749) :
    F64.toInt (F64.mul (F64.ofInt S) F64.tenth) = S / 10 :=
  toInt_reserveBuffer_eq_div h0 hS

/-- C22, witness: the last stock level ending in 9 below the bound. -/
theorem C22_double_reserve_eq_quotient_witness :
    (0 : Int) ≤ 6755399441055739 ∧ (6755399441055739 : Int) < 6755399441055749 ∧
    F64.toInt (F64.mul (F64.ofInt 6755399441055739) F64.tenth) = 6755399441055739 / 10 :=
  ⟨by decide, by decide, C22_double_reserve_eq_quotient 6755399441055739 (by decide) (by decide)⟩

end Availability
